import Mathlib

/-
  Verification development for the VLSI-LLM data pipeline.

  Each section shallowly embeds one script (or one function of a script) of
  the repository: pure Python functions become Lean functions, subprocess and
  filesystem interaction is abstracted into explicit environment parameters
  (a function from a unit of work to its outcome, or a partial map from file
  keys to file contents), and Python exceptions become Option/Except values.
  Theorems at the end settle the specification claims against these
  embeddings.
-/

namespace VLSILLM



/-!
### Synthesis sweep — src/data_collection/flow/synthesize.py, synthesize_rtl

`synthesize_rtl` iterates over `product(("low", "medium", "high"), repeat=3)`
(generic, mapping, optimization effort), invoking the external synthesis tool
once per combination.  The subprocess call for one combination ends in one of
four ways, modelled by `SynOutcome`; the surrounding try/except returns
`(rtl_id, 1)` on `TimeoutExpired`, `(rtl_id, 2)` on `CalledProcessError`,
`(rtl_id, 3)` on any other exception, abandoning the remaining combinations,
and `(rtl_id, 0)` after the loop completes.  The external tool's behaviour is
an environment parameter `env`; the embedding additionally returns the trace
of combinations that were actually attempted.
-/

inductive SynOutcome where
  | ok
  | timeoutExpired
  | calledProcessError
  | otherError
deriving DecidableEq, Repr

def synthesis_efforts : List String := ["low", "medium", "high"]

/-- `itertools.product(efforts, repeat=3)` in nested loop order:
generic outermost, then mapping, then optimization. -/
def effort_combinations : List (String × String × String) :=
  synthesis_efforts.flatMap fun g =>
    synthesis_efforts.flatMap fun m =>
      synthesis_efforts.map fun o => (g, m, o)

def outcomeCode : SynOutcome → Nat
  | .ok => 0
  | .timeoutExpired => 1
  | .calledProcessError => 2
  | .otherError => 3

/-- The effort loop of `synthesize_rtl`: returns the outcome code and the
list of combinations attempted (each attempted combination corresponds to one
`subprocess.run` call in the source). -/
def synthesize_go (env : String × String × String → SynOutcome) :
    List (String × String × String) → Nat × List (String × String × String)
  | [] => (0, [])
  | c :: rest =>
    match env c with
    | .ok =>
      let r := synthesize_go env rest
      (r.1, c :: r.2)
    | o => (outcomeCode o, [c])

/-- `synthesize_rtl(rtl_id, ...)`: the returned `(rtl_id, code)` pair plus the
trace of attempted effort combinations. -/
def synthesize_rtl (rtl_id : Nat) (env : String × String × String → SynOutcome) :
    (Nat × Nat) × List (String × String × String) :=
  let r := synthesize_go env effort_combinations
  ((rtl_id, r.1), r.2)

/-- Position and outcome of the first combination whose subprocess call does
not succeed, if any. -/
def firstFailure (env : String × String × String → SynOutcome) :
    List (String × String × String) → Option (Nat × SynOutcome)
  | [] => none
  | c :: rest =>
    if env c = .ok then
      match firstFailure env rest with
      | none => none
      | some (i, o) => some (i + 1, o)
    else some (0, env c)

/-- The behaviour the specification describes for the sweep: success code 0
with all combinations attempted when every combination succeeds; otherwise
the code of the first failing combination, with exactly the combinations up
to and including it attempted. -/
def sweepSpec (rtl_id : Nat) (env : String × String × String → SynOutcome) :
    (Nat × Nat) × List (String × String × String) :=
  match firstFailure env effort_combinations with
  | none => ((rtl_id, 0), effort_combinations)
  | some (i, o) => ((rtl_id, outcomeCode o), effort_combinations.take (i + 1))

/-!
### Netlist gate-type vocabulary — src/data_collection/flow/generate_netlist_graph.py, anonymize_graph

`types = ["buf", ..., "bb_output"]; type_mapping = {type_: i for i, type_ in
enumerate(types)}`; the per-node update `data['type'] = type_mapping[data['type']]`
raises `KeyError` for a tag outside the vocabulary.  Dict lookup in the
comprehension-built mapping is the index of the (distinct) entry in the list,
modelled by `indexInList`.
-/

def netlist_type_vocabulary : List String :=
  ["buf", "and", "or", "xor", "not", "nand", "nor", "xnor",
   "0", "1", "x", "input", "bb_input", "bb_output"]

def indexInList (l : List String) (t : String) : Option Nat :=
  match l with
  | [] => none
  | a :: rest => if a = t then some 0 else (indexInList rest t).map (· + 1)

/-- `type_mapping[tag]`: `some code`, or `none` for the `KeyError` case. -/
def gate_type_code (t : String) : Option Nat :=
  indexInList netlist_type_vocabulary t

/-- Decoding an integer code back to its symbolic name (indexing the `types`
list, as the repair script fix-bug-1020.py does in reverse). -/
def gate_type_decode (i : Nat) : Option String :=
  netlist_type_vocabulary.get? i

/-!
### CSV combination — src/data_collection/combine_csv.py

`MGverilog['id'] = MGverilog['id'] + 1000000; result = pd.concat([MGverilog,
RTLCoder], ignore_index=True)`.  A CSV row is its `id` column plus the
remaining columns, which the script never touches.
-/

structure CsvRow where
  id : Int
  rest : List String
deriving DecidableEq, Repr

def combine_csv (mgverilog rtlcoder : List CsvRow) : List CsvRow :=
  (mgverilog.map fun r => { r with id := r.id + 1000000 }) ++ rtlcoder

/-!
### Historical type-repair pass — src/data_collection/fix-bug-1020.py

For every node the script tests `"type" in str(node[1]['type'])` and, when the
test fires, replaces the attribute by `types[str(node[1]['type']).split("'")[1]]`.
A node's type attribute is either an integer code (the repaired encoding) or a
library-native symbolic tag object, modelled by `NodeTypeAttr.raw s` where `s`
is the object's `str()` rendering.  `split` failure (no quote in the string)
and dict-lookup failure are the exception cases, which abort the graph.
-/

inductive NodeTypeAttr where
  | code (n : Nat)
  | raw (s : String)
deriving DecidableEq, Repr

def attrStr : NodeTypeAttr → String
  | .code n => toString n
  | .raw s => s

/-- `charsLead needle hay`: `hay` starts with `needle`. -/
def charsLead : List Char → List Char → Bool
  | [], _ => true
  | _ :: _, [] => false
  | a :: as, b :: bs => a = b && charsLead as bs

/-- `containsSub needle hay`: Python `needle in hay` on strings. -/
def containsSub (needle : List Char) : List Char → Bool
  | [] => needle.isEmpty
  | b :: bs => charsLead needle (b :: bs) || containsSub needle bs

def pyInStr (needle hay : String) : Bool :=
  containsSub needle.toList hay.toList

def repair_node_type (a : NodeTypeAttr) : Option NodeTypeAttr :=
  if pyInStr "type" (attrStr a) then
    match ((attrStr a).splitOn "\x27").get? 1 with
    | none => none
    | some name =>
      match gate_type_code name with
      | none => none
      | some i => some (.code i)
  else
    some a

def repair_graph_types : List NodeTypeAttr → Option (List NodeTypeAttr)
  | [] => some []
  | a :: rest =>
    match repair_node_type a, repair_graph_types rest with
    | some b, some bs => some (b :: bs)
    | _, _ => none

/-- A node whose type attribute is already an integer code in the repaired
0–13 range. -/
def isSmallCode : NodeTypeAttr → Bool
  | .code n => n ≤ 13
  | .raw _ => false

/-!
### Module anonymization — generate_rtl_json.py and anonymize_netlist.py, anonymize_modules

Both scripts run one `re.sub` pass over the module-declaration pattern
(renaming the matched identifier to `anonymized_module_<counter>` and filling
`module_mapping`), then loop over `module_mapping.items()` substituting
`rf'\b{key}\b'` by the item's value over the whole text.  The text is
modelled as a token list: `VTok.decl name` is the identifier captured by a
declaration match, `VTok.word w` any other whole-word (`\b`-delimited)
identifier occurrence outside comments and strings, `VTok.commentWord w` one
inside a comment or string (the whole-word `re.sub` replaces these too), and
`VTok.other` non-identifier text.

The two variants differ in the mapping direction:
* anonymize_netlist.py stores `module_mapping[original] = anonymized`, so its
  items loop substitutes each original name by its synthetic name;
* generate_rtl_json.py stores `module_mapping[anonymized] = original`, so the
  same items loop substitutes each synthetic name back by the original name
  (the loop variables are named `original_name, anonymized_name` but receive
  the key and value of the `{anonymized: original}` dict).
-/

inductive VTok where
  | decl (name : String)
  | word (w : String)
  | commentWord (w : String)
  | other (s : String)
deriving DecidableEq, Repr

/-- `f"anonymized_module_{counter}"`. -/
def synthName (i : Nat) : String := "anonymized_module_" ++ toString i

/-- The declaration identifiers matched by the module pattern, in match
order. -/
def declNames (text : List VTok) : List String :=
  text.filterMap fun t =>
    match t with
    | .decl n => some n
    | _ => none

/-- The first `re.sub` pass: rename each declaration match to its synthetic
name (counter starting at `c`) and record the `(original, counter)` pairs in
match order. -/
def anonRename : List VTok → Nat → List VTok × List (String × Nat)
  | [], _ => ([], [])
  | .decl n :: rest, c =>
    let r := anonRename rest (c + 1)
    (.decl (synthName c) :: r.1, (n, c) :: r.2)
  | t :: rest, c =>
    let r := anonRename rest c
    (t :: r.1, r.2)

/-- `re.sub(rf'\b{pat}\b', repl, ·)` on one identifier. -/
def strSubst (pat repl w : String) : String := if w = pat then repl else w

def substWord (pat repl : String) : VTok → VTok
  | .decl n => .decl (strSubst pat repl n)
  | .word w => .word (strSubst pat repl w)
  | .commentWord w => .commentWord (strSubst pat repl w)
  | .other s => .other s

/-- The items loop: one global whole-word substitution per mapping item,
substituting each key by its value, in insertion order. -/
def applyItems (items : List (String × String)) (text : List VTok) : List VTok :=
  items.foldl (fun txt p => txt.map (substWord p.1 p.2)) text

/-- `anonymize_modules` of generate_rtl_json.py: mapping `{anonymized:
original}`, so the items loop substitutes synthetic names by originals. -/
def anonymize_modules_rtl_json (text : List VTok) : List VTok × List (String × String) :=
  let r := anonRename text 0
  let m := r.2.map fun p => (synthName p.2, p.1)
  (applyItems m r.1, m)

/-- `anonymize_modules` of anonymize_netlist.py: mapping `{original:
anonymized}`, so the items loop substitutes originals by synthetic names. -/
def anonymize_modules_netlist (text : List VTok) : List VTok × List (String × String) :=
  let r := anonRename text 0
  let m := r.2.map fun p => (p.1, synthName p.2)
  (applyItems m r.1, m)

/-- Simultaneous substitution through the mapping: the value of the first
item whose key is `w`, else `w`. -/
def lookupSubst : List (String × String) → String → String
  | [], w => w
  | p :: items, w => if p.1 = w then p.2 else lookupSubst items w

/-- What the specification describes for a correct anonymizer: the `i`-th
declaration is renamed to `anonymized_module_i`, and every other identifier
occurrence is substituted through the mapping. -/
def expectedAnon (items : List (String × String)) : List VTok → Nat → List VTok
  | [], _ => []
  | .decl _ :: rest, i => .decl (synthName i) :: expectedAnon items rest (i + 1)
  | .word w :: rest, i => .word (lookupSubst items w) :: expectedAnon items rest i
  | .commentWord w :: rest, i => .commentWord (lookupSubst items w) :: expectedAnon items rest i
  | .other s :: rest, i => .other s :: expectedAnon items rest i

/-!
### RTL dataset assembly — generate_rtl_json.py, main (per-id record)

The per-id record of `main` (lines 105–120).  Optional inputs are `Option`s:
`dataflow_success` is the list of `(idx, module)` pairs from the pyverilog
analysis pickle when that file exists, and the two label dictionaries are
present when both prediction pickles exist.  Python `x in list` is
`List.contains`.
-/

structure RtlRecord where
  verilog : List VTok
  anonymized_verilog : List VTok
  mapping : List (String × String)
  instruction : String
  description : String
  synthesis_status : Bool
  dataflow_status : Option Bool
  consistent_label : Option String
  GPT_4o_label : Option String
  Llama3_70b_label : Option String

def mk_rtl_record (rtl_id : Nat) (verilog : List VTok) (prompt : String)
    (prompt_type : Bool) (success : List Nat)
    (dataflow_success : Option (List (Nat × String)))
    (gpt_label llama_label : Nat → String) (type_prediction : Bool) : RtlRecord :=
  let a := anonymize_modules_rtl_json verilog
  { verilog := verilog
    anonymized_verilog := a.1
    mapping := a.2
    instruction := if prompt_type then prompt else ""
    description := if prompt_type then "" else prompt
    synthesis_status := success.contains rtl_id
    dataflow_status := dataflow_success.map fun dfs =>
      let module_keys := a.2.map Prod.fst
      !module_keys.isEmpty && module_keys.all fun k => dfs.contains (rtl_id, k)
    consistent_label :=
      if type_prediction then
        some (if success.contains rtl_id && gpt_label rtl_id == llama_label rtl_id
              then gpt_label rtl_id else "")
      else none
    GPT_4o_label :=
      if type_prediction then
        some (if success.contains rtl_id then gpt_label rtl_id else "")
      else none
    Llama3_70b_label :=
      if type_prediction then
        some (if success.contains rtl_id then llama_label rtl_id else "")
      else none }

/-!
### Substitution lemmas for the anonymizer model
-/

def foldTok (items : List (String × String)) (t : VTok) : VTok :=
  items.foldl (fun tok p => substWord p.1 p.2 tok) t

def foldStr (items : List (String × String)) (w : String) : String :=
  items.foldl (fun v p => strSubst p.1 p.2 v) w

def tokLookup (items : List (String × String)) : VTok → VTok
  | .decl n => .decl (lookupSubst items n)
  | .word w => .word (lookupSubst items w)
  | .commentWord w => .commentWord (lookupSubst items w)
  | .other s => .other s

/-- The mapping produced by anonymize_netlist.py on a given text. -/
def netlistMapping (text : List VTok) : List (String × String) :=
  ((declNames text).enumFrom 0).map fun p => (p.2, synthName p.1)

/-- Environment in which the 5th of the 27 effort combinations (index 4,
`("low","medium","medium")`) times out and every other combination succeeds. -/
def sweep_env_witness : String × String × String → SynOutcome :=
  fun c => if c = ("low", "medium", "medium") then .timeoutExpired else .ok

/-!
### Tabular exporters — generate_netlist_csv.py and generate_rtl_csv.py

The filesystem is an environment mapping a graph key to `some` graph (file
present) or `none` (file missing).  generate_netlist_csv.py opens the graph
pickle directly (`with open(...)`), so a missing file raises an uncaught
`FileNotFoundError`, modelled as `Except.error` aborting the export;
generate_rtl_csv.py guards each per-module graph with `os.path.isfile` and
silently skips a missing file, so its export is a total function.  The
source-file length reads (`rtl.sv`, the netlist `.v`) are modelled as total
environments: those files are not the graph pickles the claim is about.
-/

structure NetRecord where
  rtl_id : Nat
  synthesis_efforts : String
  graphgen_status : Bool
deriving DecidableEq, Repr

/-- A gate-netlist graph: nodes `(id, type, output)` and directed edges. -/
structure NGraph where
  nodes : List (Nat × Nat × Nat)
  edges : List (Nat × Nat)
deriving DecidableEq, Repr

def ngOutDeg (g : NGraph) (v : Nat) : Nat := (g.edges.filter fun e => e.1 == v).length

def ngInDeg (g : NGraph) (v : Nat) : Nat := (g.edges.filter fun e => e.2 == v).length

structure GraphInfo where
  node_count : Nat
  edge_count : Nat
  out_degree_distribution : Nat → Nat
  in_degree_distribution : Nat → Nat
  type_distribution : Nat → Nat
  output_distribution : Nat → Nat

/-- `extract_graph_info` of generate_netlist_csv.py; the Python dicts
(degree value → node count etc., with `.get(k, 0)` reads) are total
functions. -/
def extract_graph_info (g : NGraph) : GraphInfo where
  node_count := g.nodes.length
  edge_count := g.edges.length
  out_degree_distribution := fun d => (g.nodes.filter fun v => ngOutDeg g v.1 == d).length
  in_degree_distribution := fun d => (g.nodes.filter fun v => ngInDeg g v.1 == d).length
  type_distribution := fun t => (g.nodes.filter fun v => v.2.1 == t).length
  output_distribution := fun o => (g.nodes.filter fun v => v.2.2 == o).length

structure NetRow where
  id : Nat
  rtl_id : Nat
  generic_effort : String
  mapping_effort : String
  optimization_effort : String
  graphgen_status : Bool
  input_count : Nat
  output_count : Nat
  node_count : Nat
  edge_count : Nat
  indeg_dist : Nat → Nat
  outdeg_dist : Nat → Nat
  type_counts : List Nat
  verilog_file_length : Nat

/-- The per-record row of generate_netlist_csv.py (the 14 per-type columns
in header order `not, nand, nor, xor, xnor, input, 0, 1, x, buf, and, or,
bb_input, bb_output`, i.e. codes 4,5,6,3,7,11,8,9,10,0,1,2,12,13). -/
def mk_net_row (key : Nat) (v : NetRecord) (g : NGraph) (vlen : Nat) : NetRow :=
  let gi := extract_graph_info g
  let efforts := v.synthesis_efforts.splitOn "_"
  { id := key
    rtl_id := v.rtl_id
    generic_effort := efforts.getD 0 ""
    mapping_effort := efforts.getD 1 ""
    optimization_effort := efforts.getD 2 ""
    graphgen_status := v.graphgen_status
    input_count := gi.type_distribution 11
    output_count := gi.output_distribution 1
    node_count := gi.node_count
    edge_count := gi.edge_count
    indeg_dist := gi.in_degree_distribution
    outdeg_dist := gi.out_degree_distribution
    type_counts := [4, 5, 6, 3, 7, 11, 8, 9, 10, 0, 1, 2, 12, 13].map gi.type_distribution
    verilog_file_length := vlen }

/-- The main loop of generate_netlist_csv.py: `with open(graph pickle)`
with no existence check — a missing graph file raises `FileNotFoundError`
(error value: the offending key), aborting the export. -/
def netlist_export (graphs : Nat × String → Option NGraph) (vlen : Nat × String → Nat) :
    List (Nat × NetRecord) → Except (Nat × String) (List NetRow)
  | [] => .ok []
  | (key, v) :: rest =>
    match graphs (v.rtl_id, v.synthesis_efforts) with
    | none => .error (v.rtl_id, v.synthesis_efforts)
    | some g =>
      match netlist_export graphs vlen rest with
      | .ok rows => .ok (mk_net_row key v g (vlen (v.rtl_id, v.synthesis_efforts)) :: rows)
      | .error e => .error e

/-- A record of the rtl.json store as generate_rtl_csv.py reads it. -/
structure RtlCsvRecord where
  name_mapping : List (String × String)
  dataflow_status : Bool
  synthesis_status : Bool
  GPT_4o_label : String
  Llama3_70b_label : String
  consistent_label : String

/-- A dataflow graph: nodes `(id, label)` and directed edges between node
ids. -/
structure DGraph where
  nodes : List (String × String)
  edges : List (String × String)

def dgOutDeg (g : DGraph) (v : String) : Nat := (g.edges.filter fun e => e.1 == v).length

def dgInDeg (g : DGraph) (v : String) : Nat := (g.edges.filter fun e => e.2 == v).length

structure DGraphInfo where
  node_count : Nat
  edge_count : Nat
  out_degree_distribution : Nat → Nat
  in_degree_distribution : Nat → Nat
  type_distribution : String → Nat

/-- `extract_dataflow_graph_info` of generate_rtl_csv.py: a node whose id
starts with `op_` contributes its `label` to the type distribution, any
other node contributes the literal `"Signal"`. -/
def extract_dataflow_graph_info (g : DGraph) : DGraphInfo where
  node_count := g.nodes.length
  edge_count := g.edges.length
  out_degree_distribution := fun d => (g.nodes.filter fun v => dgOutDeg g v.1 == d).length
  in_degree_distribution := fun d => (g.nodes.filter fun v => dgInDeg g v.1 == d).length
  type_distribution := fun t =>
    (g.nodes.filter fun v =>
      (if v.1.startsWith "op_" then v.2 else "Signal") == t).length

structure RtlRow where
  rtl_id : Nat
  module_number : Nat
  module_name_list : List String
  dataflow_status : Nat
  synthesis_status : Nat
  GPT_4o_label : String
  Llama3_70b_label : String
  consistent_label : String
  verilog_file_length : Nat
  dataflow_node : Nat
  dataflow_edge : Nat
  type_dist : String → Nat
  in_deg_dist : Nat → Nat
  out_deg_dist : Nat → Nat

/-- The per-record row of generate_rtl_csv.py: the per-module loop checks
`os.path.isfile` and accumulates statistics only over the modules whose
graph pickle exists; missing graphs contribute nothing and raise nothing. -/
def mk_rtl_row (graphs : Nat × String → Option DGraph) (vlen : Nat → Nat)
    (rtl_id : Nat) (v : RtlCsvRecord) : RtlRow :=
  let module_names := v.name_mapping.map Prod.fst
  let infos := module_names.filterMap fun m =>
    (graphs (rtl_id, m)).map extract_dataflow_graph_info
  { rtl_id := rtl_id
    module_number := module_names.length
    module_name_list := module_names
    dataflow_status := if v.dataflow_status then 1 else 0
    synthesis_status := if v.synthesis_status then 1 else 0
    GPT_4o_label := v.GPT_4o_label
    Llama3_70b_label := v.Llama3_70b_label
    consistent_label := v.consistent_label
    verilog_file_length := vlen rtl_id
    dataflow_node := infos.foldl (fun a gi => a + gi.node_count) 0
    dataflow_edge := infos.foldl (fun a gi => a + gi.edge_count) 0
    type_dist := fun t => infos.foldl (fun a gi => a + gi.type_distribution t) 0
    in_deg_dist := fun d => infos.foldl (fun a gi => a + gi.in_degree_distribution d) 0
    out_deg_dist := fun d => infos.foldl (fun a gi => a + gi.out_degree_distribution d) 0 }

/-- The main loop of generate_rtl_csv.py: one row per record, always. -/
def rtl_export (graphs : Nat × String → Option DGraph) (vlen : Nat → Nat)
    (data : List (Nat × RtlCsvRecord)) : List RtlRow :=
  data.map fun kv => mk_rtl_row graphs vlen kv.1 kv.2

/-!
### LLM-judge JSON repair — src/experiments/vlsi_judge/vlsi_judge.py, process_batch

Per-response handling of `process_batch`: preprocessing
`response_text.strip().rstrip(',')` plus appending a closing brace when the
text does not end with one; a first `json.loads`; and, on `JSONDecodeError`,
a repair dispatched on the error message — quoting bare property names when
the message is the property-name error, inserting a comma at the reported
offset (then collapsing comma-whitespace-comma) when it is the
comma-delimiter error, and otherwise appending a trailing comma and, if that
also fails, truncating to `response_text[:e.pos]` of the first error.

`json.loads` is modelled by a recursive-descent parser mirroring CPython's
`json` package (py_make_scanner / JSONObject / JSONArray / py_scanstring /
decoder.decode) on the fragment relevant here: objects, arrays, strings with
escapes, numbers (integer part plus an uninterpreted fraction/exponent
lexeme), `true`/`false`/`null`.  The `NaN`/`Infinity` constants CPython also
accepts are outside the modelled fragment.  Error kinds correspond to the
CPython error messages the repair code matches on, and `pos` to
`JSONDecodeError.pos`.
-/

inductive JsonValue where
  | null
  | bool (b : Bool)
  | num (intPart : Int) (fracExp : String)
  | str (s : String)
  | arr (elems : List JsonValue)
  | obj (members : List (String × JsonValue))

inductive JErrKind where
  | expectingValue
  | expectingPropertyName
  | expectingColonDelimiter
  | expectingCommaDelimiter
  | extraData
  | invalidLiteral
deriving DecidableEq, Repr

structure JErr where
  kind : JErrKind
  pos : Nat
deriving DecidableEq, Repr

/-- JSON whitespace (`' \t\n\r'`). -/
def isJsonWs (c : Char) : Bool :=
  c = ' ' || c = '\t' || c = '\n' || c = '\r'

def skipWs : List Char → Nat → List Char × Nat
  | [], p => ([], p)
  | c :: cs, p => if isJsonWs c then skipWs cs (p + 1) else (c :: cs, p)

def escChar : Char → Option Char
  | '"' => some '"'
  | '\\' => some '\\'
  | '/' => some '/'
  | 'b' => some (Char.ofNat 8)
  | 'f' => some (Char.ofNat 12)
  | 'n' => some '\n'
  | 'r' => some '\r'
  | 't' => some '\t'
  | _ => none

def hexVal (c : Char) : Option Nat :=
  if c.isDigit then some (c.toNat - 48)
  else if 97 ≤ c.toNat ∧ c.toNat ≤ 102 then some (c.toNat - 87)
  else if 65 ≤ c.toNat ∧ c.toNat ≤ 70 then some (c.toNat - 55)
  else none

/-- `py_scanstring` after the opening quote: `bpos` is the position of the
opening quote (reported by the unterminated-string error), `p` the position
of the next character.  Control characters, invalid escapes and an
unterminated string are `JErrKind.invalidLiteral` (messages the repair code
does not match on). -/
def scanStringChars (fuel : Nat) (bpos : Nat) (cs : List Char) (p : Nat) :
    Except JErr (List Char × List Char × Nat) :=
  match fuel, cs with
  | 0, _ => .error ⟨.invalidLiteral, p⟩
  | _ + 1, [] => .error ⟨.invalidLiteral, bpos⟩
  | fuel + 1, c :: rest =>
    if c = '"' then .ok ([], rest, p + 1)
    else if c.toNat < 32 then .error ⟨.invalidLiteral, p⟩
    else if c = '\\' then
      match rest with
      | [] => .error ⟨.invalidLiteral, bpos⟩
      | e :: rest2 =>
        if e = 'u' then
          match rest2 with
          | h1 :: h2 :: h3 :: h4 :: rest3 =>
            match hexVal h1, hexVal h2, hexVal h3, hexVal h4 with
            | some a, some b, some c2, some d =>
              (match scanStringChars fuel bpos rest3 (p + 6) with
              | .ok (s, r, q) => .ok (Char.ofNat (((a * 16 + b) * 16 + c2) * 16 + d) :: s, r, q)
              | .error err => .error err)
            | _, _, _, _ => .error ⟨.invalidLiteral, p + 1⟩
          | _ => .error ⟨.invalidLiteral, p + 1⟩
        else
          match escChar e with
          | some ec =>
            (match scanStringChars fuel bpos rest2 (p + 2) with
            | .ok (s, r, q) => .ok (ec :: s, r, q)
            | .error err => .error err)
          | none => .error ⟨.invalidLiteral, p⟩
    else
      match scanStringChars fuel bpos rest (p + 1) with
      | .ok (s, r, q) => .ok (c :: s, r, q)
      | .error err => .error err

def takeDigits : List Char → List Char × List Char
  | [] => ([], [])
  | c :: cs =>
    if c.isDigit then
      let r := takeDigits cs
      (c :: r.1, r.2)
    else ([], c :: cs)

def digitsToNat (ds : List Char) : Nat :=
  ds.foldl (fun a c => a * 10 + (c.toNat - 48)) 0

/-- The optional fraction group `(\.\d+)?` of `NUMBER_RE`: the consumed
lexeme (empty when the group does not match) and the remaining input. -/
def fracLexeme (cs : List Char) : List Char × List Char :=
  match cs with
  | '.' :: rest =>
    let r := takeDigits rest
    if r.1.isEmpty then ([], cs) else ('.' :: r.1, r.2)
  | _ => ([], cs)

/-- The optional exponent group `([eE][+-]?\d+)?` of `NUMBER_RE`. -/
def expLexeme (cs : List Char) : List Char × List Char :=
  match cs with
  | e :: rest =>
    if e = 'e' ∨ e = 'E' then
      match rest with
      | s :: rest2 =>
        if s = '+' ∨ s = '-' then
          let r := takeDigits rest2
          if r.1.isEmpty then ([], cs) else (e :: s :: r.1, r.2)
        else
          let r := takeDigits rest
          if r.1.isEmpty then ([], cs) else (e :: r.1, r.2)
      | [] => ([], cs)
    else ([], cs)
  | [] => ([], cs)

/-- `NUMBER_RE.match` at the current position: `(-?(?:0|[1-9]\d*))` then the
optional fraction and exponent groups; `none` when the regex does not match
(the scanner then raises "Expecting value"). -/
def parseNumber (cs : List Char) (p : Nat) : Option (JsonValue × List Char × Nat) :=
  let sr : Bool × List Char × Nat :=
    match cs with
    | '-' :: rest => (true, rest, p + 1)
    | _ => (false, cs, p)
  match sr.2.1 with
  | '0' :: rest =>
    let f := fracLexeme rest
    let e := expLexeme f.2
    some (.num (if sr.1 then -(0 : Int) else 0) (String.mk (f.1 ++ e.1)),
          e.2, sr.2.2 + 1 + f.1.length + e.1.length)
  | c :: rest =>
    if c.isDigit then
      let d := takeDigits rest
      let digits := c :: d.1
      let f := fracLexeme d.2
      let e := expLexeme f.2
      let n : Int := digitsToNat digits
      some (.num (if sr.1 then -n else n) (String.mk (f.1 ++ e.1)),
            e.2, sr.2.2 + digits.length + f.1.length + e.1.length)
    else none
  | [] => none

/-- The scanner entry points of CPython's `json` package, at one recursion
depth.  `jsonLevel` below ties the knot by explicit fuel, keeping every
function structurally recursive (and hence reducible by `rfl`). -/
structure JsonScanner where
  scanValue : List Char → Nat → Except JErr (JsonValue × List Char × Nat)
  parseObject : List Char → Nat → Except JErr (JsonValue × List Char × Nat)
  parseMembers : List (String × JsonValue) → List Char → Nat →
    Except JErr (JsonValue × List Char × Nat)
  parseArray : List Char → Nat → Except JErr (JsonValue × List Char × Nat)
  parseElems : List JsonValue → List Char → Nat →
    Except JErr (JsonValue × List Char × Nat)

/-- One fuel level of the scanner: `scanValue` is CPython `scan_once`;
`parseObject`/`parseMembers` are `JSONObject` (entered just after the
opening brace; the member loop is entered just after the opening quote of a
key, whose position is `p - 1`); `parseArray`/`parseElems` are `JSONArray`.
Error positions mirror `JSONDecodeError.pos` of the corresponding raises. -/
def jsonLevel : Nat → JsonScanner
  | 0 =>
    { scanValue := fun _ p => .error ⟨.invalidLiteral, p⟩
      parseObject := fun _ p => .error ⟨.invalidLiteral, p⟩
      parseMembers := fun _ _ p => .error ⟨.invalidLiteral, p⟩
      parseArray := fun _ p => .error ⟨.invalidLiteral, p⟩
      parseElems := fun _ _ p => .error ⟨.invalidLiteral, p⟩ }
  | fuel + 1 =>
    let prev := jsonLevel fuel
    { scanValue := fun cs p =>
        match cs with
        | [] => .error ⟨.expectingValue, p⟩
        | '"' :: rest =>
          (match scanStringChars (rest.length + 1) p rest (p + 1) with
          | .ok (s, r, q) => .ok (.str (String.mk s), r, q)
          | .error e => .error e)
        | '\x7b' :: rest => prev.parseObject rest (p + 1)
        | '[' :: rest => prev.parseArray rest (p + 1)
        | c :: rest =>
          let l := c :: rest
          if charsLead ['n', 'u', 'l', 'l'] l then .ok (.null, l.drop 4, p + 4)
          else if charsLead ['t', 'r', 'u', 'e'] l then .ok (.bool true, l.drop 4, p + 4)
          else if charsLead ['f', 'a', 'l', 's', 'e'] l then .ok (.bool false, l.drop 5, p + 5)
          else
            match parseNumber l p with
            | some r => .ok r
            | none => .error ⟨.expectingValue, p⟩
      parseObject := fun cs p =>
        let w :=
          match cs with
          | c :: _ => if c = '"' then (cs, p) else skipWs cs p
          | [] => ([], p)
        match w.1 with
        | '\x7d' :: rest => .ok (.obj [], rest, w.2 + 1)
        | '"' :: rest => prev.parseMembers [] rest (w.2 + 1)
        | _ => .error ⟨.expectingPropertyName, w.2⟩
      parseMembers := fun acc cs p =>
        match scanStringChars (cs.length + 1) (p - 1) cs p with
        | .error e => .error e
        | .ok (key, cs2, p2) =>
          let w :=
            match cs2 with
            | ':' :: _ => (cs2, p2)
            | _ => skipWs cs2 p2
          match w.1 with
          | ':' :: cs4 =>
            let w5 := skipWs cs4 (w.2 + 1)
            (match prev.scanValue w5.1 w5.2 with
            | .error e => .error e
            | .ok (v, cs6, p6) =>
              let acc2 := acc ++ [(String.mk key, v)]
              let w7 := skipWs cs6 p6
              match w7.1 with
              | '\x7d' :: cs8 => .ok (.obj acc2, cs8, w7.2 + 1)
              | ',' :: cs8 =>
                let w9 := skipWs cs8 (w7.2 + 1)
                (match w9.1 with
                | '"' :: cs10 => prev.parseMembers acc2 cs10 (w9.2 + 1)
                | _ => .error ⟨.expectingPropertyName, w9.2⟩)
              | _ => .error ⟨.expectingCommaDelimiter, w7.2⟩)
          | _ => .error ⟨.expectingColonDelimiter, w.2⟩
      parseArray := fun cs p =>
        let w := skipWs cs p
        match w.1 with
        | ']' :: rest => .ok (.arr [], rest, w.2 + 1)
        | _ => prev.parseElems [] w.1 w.2
      parseElems := fun acc cs p =>
        match prev.scanValue cs p with
        | .error e => .error e
        | .ok (v, cs2, p2) =>
          let acc2 := acc ++ [v]
          let w := skipWs cs2 p2
          match w.1 with
          | ']' :: cs4 => .ok (.arr acc2, cs4, w.2 + 1)
          | ',' :: cs4 =>
            let w5 := skipWs cs4 (w.2 + 1)
            prev.parseElems acc2 w5.1 w5.2
          | _ => .error ⟨.expectingCommaDelimiter, w.2⟩ }

def scanValue (fuel : Nat) : List Char → Nat → Except JErr (JsonValue × List Char × Nat) :=
  (jsonLevel fuel).scanValue

/-- `json.loads`: `decoder.decode` — skip leading whitespace, scan one value,
skip trailing whitespace, and raise "Extra data" if input remains. -/
def json_loadsChars (cs : List Char) : Except JErr JsonValue :=
  let w := skipWs cs 0
  match scanValue (cs.length * 4 + 16) w.1 w.2 with
  | .error e => .error e
  | .ok (v, rest, p2) =>
    let w2 := skipWs rest p2
    match w2.1 with
    | [] => .ok v
    | _ => .error ⟨.extraData, w2.2⟩

def json_loads (s : String) : Except JErr JsonValue :=
  json_loadsChars s.toList

/-- Python `str.strip` / `str.rstrip` whitespace (also `\f`, `\v`), which is
likewise the regex `\s` class used by the repair substitutions. -/
def isPyWs (c : Char) : Bool :=
  c = ' ' || c = '\t' || c = '\n' || c = '\r' || c = '\x0b' || c = '\x0c'

def dropLeadWs : List Char → List Char
  | [] => []
  | c :: cs => if isPyWs c then dropLeadWs cs else c :: cs

def pyStripChars (cs : List Char) : List Char :=
  (dropLeadWs (dropLeadWs cs).reverse).reverse

def dropLeadCommas : List Char → List Char
  | [] => []
  | c :: cs => if c = ',' then dropLeadCommas cs else c :: cs

/-- `.rstrip(',')`. -/
def rstripCommas (cs : List Char) : List Char :=
  (dropLeadCommas cs.reverse).reverse

/-- `.rstrip()`. -/
def rstripWs (cs : List Char) : List Char :=
  (dropLeadWs cs.reverse).reverse

def isWordChar (c : Char) : Bool := c.isAlphanum || c = '_'

def takeWordRun : List Char → List Char × List Char
  | [] => ([], [])
  | c :: cs =>
    if isWordChar c then
      let r := takeWordRun cs
      (c :: r.1, r.2)
    else ([], c :: cs)

/-- `re.sub(r'(\w+)(?=\s*:)', r'"\1"', ·)`: a maximal word run is wrapped in
double quotes exactly when it is followed (after optional whitespace) by a
colon; the lookahead is not consumed. -/
def quoteBare (fuel : Nat) (cs : List Char) : List Char :=
  match fuel, cs with
  | 0, cs => cs
  | _ + 1, [] => []
  | fuel + 1, c :: rest =>
    if isWordChar c then
      let r := takeWordRun (c :: rest)
      match dropLeadWs r.2 with
      | ':' :: _ => '"' :: (r.1 ++ '"' :: quoteBare fuel r.2)
      | _ => r.1 ++ quoteBare fuel r.2
    else c :: quoteBare fuel rest

def insertAt (cs : List Char) (pos : Nat) (c : Char) : List Char :=
  cs.take pos ++ c :: cs.drop pos

/-- `re.sub(r',\s*,', ',', ·)`: one left-to-right non-overlapping pass. -/
def collapseCommaPairs (fuel : Nat) (cs : List Char) : List Char :=
  match fuel, cs with
  | 0, cs => cs
  | _ + 1, [] => []
  | fuel + 1, c :: rest =>
    if c = ',' then
      match dropLeadWs rest with
      | ',' :: rest2 => ',' :: collapseCommaPairs fuel rest2
      | _ => ',' :: collapseCommaPairs fuel rest
    else c :: collapseCommaPairs fuel rest

/-- `response_text.strip().rstrip(',')` followed by
`if not response_text.endswith('}'): response_text += '}'`. -/
def judgePreprocess (s : String) : List Char :=
  let t0 := rstripCommas (pyStripChars s.toList)
  if t0.getLast? = some '\x7d' then t0 else t0 ++ ['\x7d']

/-- The per-response parse-and-repair of `process_batch`: `none` is the
`completed_requests.append(None)` failure case. -/
def judge_parse_response (s : String) : Option JsonValue :=
  let t := judgePreprocess s
  match json_loadsChars t with
  | .ok v => some v
  | .error e =>
    match e.kind with
    | .expectingPropertyName =>
      (match json_loadsChars (quoteBare (t.length + 1) t) with
      | .ok v => some v
      | .error _ => none)
    | .expectingCommaDelimiter =>
      (match json_loadsChars (collapseCommaPairs (t.length + 2) (insertAt t e.pos ',')) with
      | .ok v => some v
      | .error _ => none)
    | _ =>
      match json_loadsChars (rstripWs t ++ [',']) with
      | .ok v => some v
      | .error _ =>
        match json_loadsChars (t.take e.pos) with
        | .ok v => some v
        | .error _ => none

/-!
## Lemmas and claim theorems
-/

lemma synthesize_go_eq_spec (env : String × String × String → SynOutcome)
    (l : List (String × String × String)) :
    synthesize_go env l =
      match firstFailure env l with
      | none => (0, l)
      | some (i, o) => (outcomeCode o, l.take (i + 1)) := by
  induction l with
  | nil => rfl
  | cons c rest ih =>
    by_cases h : env c = .ok
    · simp only [synthesize_go, firstFailure, h, if_true]
      rw [ih]
      cases hf : firstFailure env rest with
      | none => simp [hf]
      | some p =>
        obtain ⟨i, o⟩ := p
        simp [hf, List.take]
    · simp only [synthesize_go, firstFailure, if_neg h]
      cases he : env c with
      | ok => exact absurd he h
      | timeoutExpired => simp [List.take]
      | calledProcessError => simp [List.take]
      | otherError => simp [List.take]

lemma indexInList_eq_none (l : List String) (t : String) (h : t ∉ l) :
    indexInList l t = none := by
  induction l with
  | nil => rfl
  | cons a rest ih =>
    have ha : ¬ a = t := fun he => h (he ▸ List.mem_cons_self a rest)
    simp only [indexInList, if_neg ha]
    rw [ih (fun hm => h (List.mem_cons_of_mem a hm))]
    rfl

lemma firstFailure_eq_none_iff (env : String × String × String → SynOutcome)
    (l : List (String × String × String)) :
    firstFailure env l = none ↔ ∀ c ∈ l, env c = .ok := by
  induction l with
  | nil => simp [firstFailure]
  | cons c rest ih =>
    by_cases h : env c = .ok
    · rw [firstFailure, if_pos h]
      cases hf : firstFailure env rest with
      | none =>
        simp only [List.mem_cons]
        constructor
        · intro _ x hx
          rcases hx with hx | hx
          · exact hx ▸ h
          · exact (ih.1 hf) x hx
        · intro _; trivial
      | some p =>
        obtain ⟨i, o⟩ := p
        simp only [List.mem_cons]
        constructor
        · intro hcontra; exact Option.noConfusion hcontra
        · intro hall
          have : firstFailure env rest = none := ih.2 (fun x hx => hall x (Or.inr hx))
          rw [this] at hf
          exact Option.noConfusion hf
    · rw [firstFailure, if_neg h]
      constructor
      · intro hcontra; exact Option.noConfusion hcontra
      · intro hall; exact absurd (hall c (List.mem_cons_self c rest)) h

lemma firstFailure_some_ne_ok (env : String × String × String → SynOutcome)
    (l : List (String × String × String)) :
    ∀ i o, firstFailure env l = some (i, o) → o ≠ .ok := by
  induction l with
  | nil => intro i o h; exact absurd h (by simp [firstFailure])
  | cons c rest ih =>
    intro i o h
    by_cases hc : env c = .ok
    · rw [firstFailure, if_pos hc] at h
      cases hm : firstFailure env rest with
      | none => rw [hm] at h; exact Option.noConfusion h
      | some p =>
        obtain ⟨j, o2⟩ := p
        rw [hm] at h
        have h2 := Option.some.inj h
        have ho : o2 = o := congrArg Prod.snd h2
        exact ho ▸ ih j o2 hm
    · rw [firstFailure, if_neg hc] at h
      have h2 := Option.some.inj h
      have ho : env c = o := congrArg Prod.snd h2
      exact ho ▸ hc

lemma applyItems_eq_map (items : List (String × String)) (text : List VTok) :
    applyItems items text = text.map (foldTok items) := by
  induction items generalizing text with
  | nil => exact (List.map_id text).symm
  | cons p items ih =>
    show applyItems items (text.map (substWord p.1 p.2)) = _
    rw [ih, List.map_map]
    rfl

lemma foldTok_cases (items : List (String × String)) :
    ∀ t, foldTok items t =
      match t with
      | .decl n => .decl (foldStr items n)
      | .word w => .word (foldStr items w)
      | .commentWord w => .commentWord (foldStr items w)
      | .other s => .other s := by
  induction items with
  | nil => intro t; cases t <;> rfl
  | cons p items ih =>
    intro t
    cases t with
    | decl n => exact ih (.decl (strSubst p.1 p.2 n))
    | word w => exact ih (.word (strSubst p.1 p.2 w))
    | commentWord w => exact ih (.commentWord (strSubst p.1 p.2 w))
    | other s => exact ih (.other s)

lemma foldStr_not_key (items : List (String × String)) (w : String)
    (h : ∀ p ∈ items, p.1 ≠ w) : foldStr items w = w := by
  induction items with
  | nil => rfl
  | cons p items ih =>
    have hp : p.1 ≠ w := h p (List.mem_cons_self p items)
    show foldStr items (strSubst p.1 p.2 w) = w
    rw [strSubst, if_neg (fun he => hp he.symm)]
    exact ih fun q hq => h q (List.mem_cons_of_mem p hq)

lemma lookupSubst_not_key (items : List (String × String)) (w : String)
    (h : ∀ p ∈ items, p.1 ≠ w) : lookupSubst items w = w := by
  induction items with
  | nil => rfl
  | cons p items ih =>
    rw [lookupSubst, if_neg (h p (List.mem_cons_self p items))]
    exact ih fun q hq => h q (List.mem_cons_of_mem p hq)

lemma foldStr_eq_lookup (items : List (String × String))
    (hcross : ∀ p ∈ items, ∀ q ∈ items, p.2 ≠ q.1) :
    ∀ w, foldStr items w = lookupSubst items w := by
  induction items with
  | nil => intro w; rfl
  | cons p items ih =>
    intro w
    by_cases hw : p.1 = w
    · show foldStr items (strSubst p.1 p.2 w) = _
      rw [strSubst, if_pos hw.symm, lookupSubst, if_pos hw]
      exact foldStr_not_key items p.2 fun q hq heq =>
        hcross p (List.mem_cons_self p items) q (List.mem_cons_of_mem p hq) heq.symm
    · show foldStr items (strSubst p.1 p.2 w) = _
      rw [strSubst, if_neg (fun he => hw he.symm), lookupSubst, if_neg hw]
      exact ih (fun a ha b hb =>
        hcross a (List.mem_cons_of_mem p ha) b (List.mem_cons_of_mem p hb)) w

lemma anonRename_pairs : ∀ (text : List VTok) (c : Nat),
    (anonRename text c).2 = ((declNames text).enumFrom c).map fun p => (p.2, p.1) := by
  intro text
  induction text with
  | nil => intro c; rfl
  | cons t rest ih =>
    intro c
    cases t with
    | decl n =>
      show (n, c) :: (anonRename rest (c + 1)).2 = _
      rw [ih (c + 1)]
      rfl
    | word w => exact ih c
    | commentWord w => exact ih c
    | other s => exact ih c

lemma anonRename_map_lookup (m : List (String × String))
    (hkeys : ∀ p ∈ m, ∀ k, p.1 ≠ synthName k) :
    ∀ (text : List VTok) (c : Nat),
      ((anonRename text c).1).map (tokLookup m) = expectedAnon m text c := by
  intro text
  induction text with
  | nil => intro c; rfl
  | cons t rest ih =>
    intro c
    cases t with
    | decl n =>
      show VTok.decl (lookupSubst m (synthName c)) :: _ = _
      rw [lookupSubst_not_key m (synthName c) (fun p hp => hkeys p hp c), ih (c + 1)]
      rfl
    | word w =>
      show VTok.word (lookupSubst m w) :: _ = _
      rw [ih c]
      rfl
    | commentWord w =>
      show VTok.commentWord (lookupSubst m w) :: _ = _
      rw [ih c]
      rfl
    | other s =>
      show VTok.other s :: _ = _
      rw [ih c]
      rfl

/-- Correctness of the anonymize_netlist.py variant: the mapping pairs the
declared names, in declaration order, with `anonymized_module_0..N-1`, and
the output text renames the `i`-th declaration to `anonymized_module_i` and
substitutes every whole-word occurrence of each declared name (anywhere in
the text) through that mapping.  Hypothesis: no declared name is itself of
the synthetic `anonymized_module_<k>` form. -/
theorem anonymize_modules_netlist_correct (text : List VTok)
    (hno : ∀ n ∈ declNames text, ∀ k, n ≠ synthName k) :
    anonymize_modules_netlist text =
      (expectedAnon (netlistMapping text) text 0, netlistMapping text) := by
  have hm : ((anonRename text 0).2.map fun p => (p.1, synthName p.2)) = netlistMapping text := by
    rw [anonRename_pairs text 0, List.map_map]
    rfl
  have hmem : ∀ p ∈ netlistMapping text, p.1 ∈ declNames text := by
    intro p hp
    obtain ⟨q, hq, hqe⟩ := List.mem_map.1 hp
    have : q.2 ∈ ((declNames text).enumFrom 0).map Prod.snd := List.mem_map_of_mem Prod.snd hq
    rw [List.enumFrom_map_snd] at this
    exact hqe ▸ this
  have hkeys : ∀ p ∈ netlistMapping text, ∀ k, p.1 ≠ synthName k :=
    fun p hp k => hno p.1 (hmem p hp) k
  have hcross : ∀ p ∈ netlistMapping text, ∀ q ∈ netlistMapping text, p.2 ≠ q.1 := by
    intro p hp q hq
    obtain ⟨a, _, hae⟩ := List.mem_map.1 hp
    intro heq
    have hp2 : p.2 = synthName a.1 := (congrArg Prod.snd hae).symm
    exact hkeys q hq a.1 (heq.symm.trans hp2)
  show (applyItems ((anonRename text 0).2.map fun p => (p.1, synthName p.2)) (anonRename text 0).1,
        (anonRename text 0).2.map fun p => (p.1, synthName p.2)) = _
  rw [hm, applyItems_eq_map]
  have htok : ∀ t, foldTok (netlistMapping text) t = tokLookup (netlistMapping text) t := by
    intro t
    rw [foldTok_cases]
    cases t <;> simp only [tokLookup] <;> rw [foldStr_eq_lookup (netlistMapping text) hcross]
  rw [List.map_congr_left (fun t _ => htok t), anonRename_map_lookup (netlistMapping text) hkeys text 0]

/-!
## Claim theorems
-/

/-- C3: for every RTL id the synthesis sweep attempts the 27 effort
combinations in the fixed nested Cartesian-product order (generic, then
mapping, then optimization, each over low/medium/high); a timeout returns
code 1, a process failure code 2, an unexpected exception code 3, in each
case immediately, with no later combination attempted; code 0 is returned
exactly when all 27 combinations complete. -/
theorem synthesize_rtl_short_circuit :
    (∀ (rtl_id : Nat) (env : String × String × String → SynOutcome),
        synthesize_rtl rtl_id env = sweepSpec rtl_id env)
    ∧ effort_combinations =
        [("low","low","low"), ("low","low","medium"), ("low","low","high"),
         ("low","medium","low"), ("low","medium","medium"), ("low","medium","high"),
         ("low","high","low"), ("low","high","medium"), ("low","high","high"),
         ("medium","low","low"), ("medium","low","medium"), ("medium","low","high"),
         ("medium","medium","low"), ("medium","medium","medium"), ("medium","medium","high"),
         ("medium","high","low"), ("medium","high","medium"), ("medium","high","high"),
         ("high","low","low"), ("high","low","medium"), ("high","low","high"),
         ("high","medium","low"), ("high","medium","medium"), ("high","medium","high"),
         ("high","high","low"), ("high","high","medium"), ("high","high","high")]
    ∧ effort_combinations.length = 27
    ∧ effort_combinations.Nodup
    ∧ (∀ (rtl_id : Nat) (env : String × String × String → SynOutcome),
        (synthesize_rtl rtl_id env).1.2 = 0 ↔ ∀ c ∈ effort_combinations, env c = .ok) := by
  have hmain : ∀ (rtl_id : Nat) (env : String × String × String → SynOutcome),
      synthesize_rtl rtl_id env = sweepSpec rtl_id env := by
    intro rtl_id env
    unfold synthesize_rtl sweepSpec
    rw [synthesize_go_eq_spec]
    cases firstFailure env effort_combinations with
    | none => rfl
    | some p => obtain ⟨i, o⟩ := p; rfl
  refine ⟨hmain, by decide, by decide, by decide, ?_⟩
  intro rtl_id env
  rw [hmain]
  unfold sweepSpec
  cases hf : firstFailure env effort_combinations with
  | none =>
    constructor
    · intro _
      exact (firstFailure_eq_none_iff env effort_combinations).1 hf
    · intro _
      rfl
  | some p =>
    obtain ⟨i, o⟩ := p
    have hne := firstFailure_some_ne_ok env effort_combinations i o hf
    constructor
    · intro h0
      exfalso
      apply hne
      cases o with
      | ok => rfl
      | timeoutExpired => exact absurd h0 (by simp [outcomeCode])
      | calledProcessError => exact absurd h0 (by simp [outcomeCode])
      | otherError => exact absurd h0 (by simp [outcomeCode])
    · intro hall
      have hn := (firstFailure_eq_none_iff env effort_combinations).2 hall
      rw [hn] at hf
      exact Option.noConfusion hf

theorem synthesize_rtl_short_circuit_witness :
    synthesize_rtl 7 sweep_env_witness = ((7, 1), effort_combinations.take 5) := by
  rw [synthesize_rtl_short_circuit.1 7 sweep_env_witness]
  rfl

/-- C6: the gate-type encoding maps exactly the 14 vocabulary entries to the
codes buf=0, and=1, or=2, xor=3, not=4, nand=5, nor=6, xnor=7, 0=8, 1=9,
x=10, input=11, bb_input=12, bb_output=13, round-trips every entry in both
directions, and fails (KeyError, modelled as `none`) on any tag outside the
vocabulary instead of assigning a default code. -/
theorem gate_type_vocabulary_correct :
    (gate_type_code "buf" = some 0 ∧ gate_type_code "and" = some 1 ∧
     gate_type_code "or" = some 2 ∧ gate_type_code "xor" = some 3 ∧
     gate_type_code "not" = some 4 ∧ gate_type_code "nand" = some 5 ∧
     gate_type_code "nor" = some 6 ∧ gate_type_code "xnor" = some 7 ∧
     gate_type_code "0" = some 8 ∧ gate_type_code "1" = some 9 ∧
     gate_type_code "x" = some 10 ∧ gate_type_code "input" = some 11 ∧
     gate_type_code "bb_input" = some 12 ∧ gate_type_code "bb_output" = some 13)
    ∧ netlist_type_vocabulary.length = 14
    ∧ (∀ s ∈ netlist_type_vocabulary, (gate_type_code s).bind gate_type_decode = some s)
    ∧ (∀ i, i < 14 → (gate_type_decode i).bind gate_type_code = some i)
    ∧ (∀ s, s ∉ netlist_type_vocabulary → gate_type_code s = none) := by
  refine ⟨by decide, by decide, by decide, by decide, ?_⟩
  intro s hs
  exact indexInList_eq_none _ _ hs

theorem gate_type_vocabulary_correct_witness :
    gate_type_code "dff" = none ∧ (gate_type_decode 11).bind gate_type_code = some 11 :=
  ⟨gate_type_vocabulary_correct.2.2.2.2 "dff" (by decide),
   gate_type_vocabulary_correct.2.2.2.1 11 (by decide)⟩

/-- C8: the combined CSV has as many rows as the two inputs together; every
row of the first (offset) corpus has its id increased by exactly 1,000,000,
every row of the second corpus keeps its id, and all other columns of every
row are preserved, in order. -/
theorem combine_csv_offset_rowcount :
    ∀ (mgverilog rtlcoder : List CsvRow),
      (combine_csv mgverilog rtlcoder).length = mgverilog.length + rtlcoder.length
      ∧ (combine_csv mgverilog rtlcoder).map CsvRow.id =
          mgverilog.map (fun r => r.id + 1000000) ++ rtlcoder.map CsvRow.id
      ∧ (combine_csv mgverilog rtlcoder).map CsvRow.rest =
          mgverilog.map CsvRow.rest ++ rtlcoder.map CsvRow.rest := by
  intro mg rt
  refine ⟨by simp [combine_csv], ?_, ?_⟩
  · simp [combine_csv, List.map_map, Function.comp]
  · simp [combine_csv, List.map_map, Function.comp]

/-- C9: on a gate-netlist graph all of whose nodes already carry an integer
type code in 0–13, the historical type-repair pass leaves every node
unchanged (and raises nothing), the symbolic-tag detection test
`"type" in str(attr)` never fires on such a code, and applying the pass twice
equals applying it once. -/
theorem fix_bug_repair_idempotent :
    ∀ g : List NodeTypeAttr, (∀ a ∈ g, isSmallCode a = true) →
      repair_graph_types g = some g
      ∧ (repair_graph_types g).bind repair_graph_types = repair_graph_types g
      ∧ (∀ a ∈ g, pyInStr "type" (attrStr a) = false) := by
  have hdig : ∀ n, n < 14 → pyInStr "type" (toString n) = false := by decide
  intro g hg
  have hnode : ∀ a ∈ g, repair_node_type a = some a ∧ pyInStr "type" (attrStr a) = false := by
    intro a ha
    cases a with
    | code n =>
      have hn : n < 14 := by
        have := hg _ ha
        simp [isSmallCode] at this
        omega
      have hfalse : pyInStr "type" (attrStr (NodeTypeAttr.code n)) = false := hdig n hn
      exact ⟨by simp [repair_node_type, hfalse], hfalse⟩
    | raw s =>
      have := hg _ ha
      simp [isSmallCode] at this
  have hid : ∀ l : List NodeTypeAttr,
      (∀ a ∈ l, repair_node_type a = some a) → repair_graph_types l = some l := by
    intro l
    induction l with
    | nil => intro _; rfl
    | cons a rest ih =>
      intro h
      have ha := h a (List.mem_cons_self a rest)
      have hr := ih (fun b hb => h b (List.mem_cons_of_mem a hb))
      simp [repair_graph_types, ha, hr]
  have h1 : repair_graph_types g = some g := hid g (fun a ha => (hnode a ha).1)
  exact ⟨h1, by rw [h1]; exact h1, fun a ha => (hnode a ha).2⟩

theorem fix_bug_repair_idempotent_witness :
    repair_graph_types [NodeTypeAttr.code 0, NodeTypeAttr.code 13, NodeTypeAttr.code 5] =
      some [NodeTypeAttr.code 0, NodeTypeAttr.code 13, NodeTypeAttr.code 5] :=
  (fix_bug_repair_idempotent _ (by decide)).1

lemma contains_iff_mem {α} [BEq α] [LawfulBEq α] (l : List α) (x : α) :
    l.contains x = true ↔ x ∈ l := List.elem_iff

/-- C4 (code bug in generate_rtl_json.py): on the text
`module foo (clk); endmodule` followed by an instantiation word `foo`,
`anonymize_modules` returns the text unchanged together with the mapping
`{anonymized_module_0: foo}`.  The dict maps anonymized → original while the
items loop unpacks `(original_name, anonymized_name)`, so pass 2 substitutes
the synthetic declaration name back to `foo`, and the whole-word occurrence
of `foo` is never replaced by `anonymized_module_0` — contradicting both the
claim and the function's own docstring (the sibling implementation in
anonymize_netlist.py, proved correct in `anonymize_modules_netlist_correct`,
shows the intent). -/
theorem anonymize_rtl_json_failing_input :
    anonymize_modules_rtl_json
        [VTok.decl "foo", VTok.other " (clk); endmodule ", VTok.word "foo", VTok.word "u1"] =
      ([VTok.decl "foo", VTok.other " (clk); endmodule ", VTok.word "foo", VTok.word "u1"],
       [("anonymized_module_0", "foo")]) := by
  rfl

/-- C1: when pyverilog analysis results are available, the assembled record's
`dataflow_status` is `true` iff the record's module-name mapping is non-empty
and every module key of that mapping forms a pair `(rtl_id, key)` contained
in the analyzer's `dataflow_success` list; with zero matched module
declarations it is `false`. -/
theorem rtl_record_dataflow_status_iff
    (rtl_id : Nat) (verilog : List VTok) (prompt : String) (prompt_type : Bool)
    (success : List Nat) (dfs : List (Nat × String))
    (gpt llama : Nat → String) (tp : Bool) :
    ((mk_rtl_record rtl_id verilog prompt prompt_type success (some dfs) gpt llama tp).dataflow_status
        = some true ↔
      ((mk_rtl_record rtl_id verilog prompt prompt_type success (some dfs) gpt llama tp).mapping ≠ []
        ∧ ∀ k ∈ (mk_rtl_record rtl_id verilog prompt prompt_type success (some dfs) gpt llama tp).mapping.map
            Prod.fst, (rtl_id, k) ∈ dfs))
    ∧ (declNames verilog = [] →
        (mk_rtl_record rtl_id verilog prompt prompt_type success (some dfs) gpt llama tp).dataflow_status
          = some false) := by
  constructor
  · simp only [mk_rtl_record, Option.map_some', Option.some.injEq, Bool.and_eq_true,
      Bool.not_eq_true', List.isEmpty_eq_false_iff_exists_mem, List.all_eq_true]
    constructor
    · rintro ⟨⟨x, hx⟩, hall⟩
      refine ⟨?_, ?_⟩
      · intro hnil
        rw [hnil] at hx
        simp at hx
      · intro k hk
        exact (contains_iff_mem dfs (rtl_id, k)).1 (hall k hk)
    · rintro ⟨hne, hall⟩
      refine ⟨?_, ?_⟩
      · rcases List.exists_mem_of_ne_nil _ hne with ⟨x, hx⟩
        exact ⟨x.1, List.mem_map_of_mem Prod.fst hx⟩
      · intro k hk
        exact (contains_iff_mem dfs (rtl_id, k)).2 (hall k hk)
  · intro hdecl
    have hmap : (anonymize_modules_rtl_json verilog).2 = [] := by
      show ((anonRename verilog 0).2.map fun p => (synthName p.2, p.1)) = []
      rw [anonRename_pairs verilog 0, hdecl]
      rfl
    simp only [mk_rtl_record, Option.map_some', Option.some.injEq, hmap]
    rfl

theorem rtl_record_dataflow_status_iff_witness :
    (mk_rtl_record 0 [VTok.word "w"] "p" true [] (some [])
        (fun _ => "") (fun _ => "") false).dataflow_status = some false :=
  (rtl_record_dataflow_status_iff 0 [VTok.word "w"] "p" true [] []
    (fun _ => "") (fun _ => "") false).2 rfl

/-- C5: with both label-prediction artifacts present, `consistent_label` is
the shared label exactly when the two predictions agree and the id is in the
synthesis success list, and the empty string otherwise; `GPT_4o_label` and
`Llama3_70b_label` are the empty string when the id is not in the success
list (and the respective predictions when it is). -/
theorem rtl_record_consistent_label
    (rtl_id : Nat) (verilog : List VTok) (prompt : String) (prompt_type : Bool)
    (success : List Nat) (dfso : Option (List (Nat × String)))
    (gpt llama : Nat → String) :
    (rtl_id ∈ success ∧ gpt rtl_id = llama rtl_id →
      (mk_rtl_record rtl_id verilog prompt prompt_type success dfso gpt llama true).consistent_label
        = some (gpt rtl_id))
    ∧ (¬(rtl_id ∈ success ∧ gpt rtl_id = llama rtl_id) →
      (mk_rtl_record rtl_id verilog prompt prompt_type success dfso gpt llama true).consistent_label
        = some "")
    ∧ (rtl_id ∉ success →
      (mk_rtl_record rtl_id verilog prompt prompt_type success dfso gpt llama true).GPT_4o_label
          = some ""
        ∧ (mk_rtl_record rtl_id verilog prompt prompt_type success dfso gpt llama true).Llama3_70b_label
          = some "")
    ∧ (rtl_id ∈ success →
      (mk_rtl_record rtl_id verilog prompt prompt_type success dfso gpt llama true).GPT_4o_label
          = some (gpt rtl_id)
        ∧ (mk_rtl_record rtl_id verilog prompt prompt_type success dfso gpt llama true).Llama3_70b_label
          = some (llama rtl_id)) := by
  refine ⟨?_, ?_, ?_, ?_⟩
  · rintro ⟨hs, he⟩
    have hc := (contains_iff_mem success rtl_id).2 hs
    have hb : (gpt rtl_id == llama rtl_id) = true := beq_iff_eq.2 he
    simp only [mk_rtl_record, hc, hb]
    rfl
  · intro hn
    rcases Decidable.em (rtl_id ∈ success) with hs | hs
    · have hc := (contains_iff_mem success rtl_id).2 hs
      have he : ¬ gpt rtl_id = llama rtl_id := fun he => hn ⟨hs, he⟩
      have hb : (gpt rtl_id == llama rtl_id) = false := beq_eq_false_iff_ne.2 he
      simp only [mk_rtl_record, hc, hb]
      rfl
    · have hc : success.contains rtl_id = false := by
        cases hcb : success.contains rtl_id with
        | false => rfl
        | true => exact absurd ((contains_iff_mem success rtl_id).1 hcb) hs
      simp only [mk_rtl_record, hc]
      rfl
  · intro hs
    have hc : success.contains rtl_id = false := by
      cases hcb : success.contains rtl_id with
      | false => rfl
      | true => exact absurd ((contains_iff_mem success rtl_id).1 hcb) hs
    exact ⟨by simp only [mk_rtl_record, hc]; rfl, by simp only [mk_rtl_record, hc]; rfl⟩
  · intro hs
    have hc := (contains_iff_mem success rtl_id).2 hs
    exact ⟨by simp only [mk_rtl_record, hc]; rfl, by simp only [mk_rtl_record, hc]; rfl⟩

theorem rtl_record_consistent_label_witness :
    (mk_rtl_record 3 [] "p" true [3] none
        (fun _ => "Arithmetic Units") (fun _ => "Arithmetic Units") true).consistent_label
      = some "Arithmetic Units" :=
  (rtl_record_consistent_label 3 [] "p" true [3] none
      (fun _ => "Arithmetic Units") (fun _ => "Arithmetic Units")).1 ⟨by decide, rfl⟩

/-- C10: in any assembled record, at most one of `instruction` and
`description` is non-empty; the prompt-type flag alone decides which field
holds the prompt text, and the unselected field is always the empty
string. -/
theorem rtl_record_prompt_exclusive :
    ∀ (rtl_id : Nat) (verilog : List VTok) (prompt : String) (prompt_type : Bool)
      (success : List Nat) (dfso : Option (List (Nat × String)))
      (gpt llama : Nat → String) (tp : Bool),
      ((mk_rtl_record rtl_id verilog prompt prompt_type success dfso gpt llama tp).instruction = ""
        ∨ (mk_rtl_record rtl_id verilog prompt prompt_type success dfso gpt llama tp).description = "")
      ∧ ((prompt_type = true
          ∧ (mk_rtl_record rtl_id verilog prompt prompt_type success dfso gpt llama tp).instruction = prompt
          ∧ (mk_rtl_record rtl_id verilog prompt prompt_type success dfso gpt llama tp).description = "")
        ∨ (prompt_type = false
          ∧ (mk_rtl_record rtl_id verilog prompt prompt_type success dfso gpt llama tp).description = prompt
          ∧ (mk_rtl_record rtl_id verilog prompt prompt_type success dfso gpt llama tp).instruction = "")) := by
  intro rtl_id verilog prompt prompt_type success dfso gpt llama tp
  cases prompt_type with
  | true => exact ⟨Or.inr rfl, Or.inl ⟨rfl, rfl, rfl⟩⟩
  | false => exact ⟨Or.inl rfl, Or.inr ⟨rfl, rfl, rfl⟩⟩

/-- C2 (counterexample): the netlist CSV exporter, on a store with one
record whose graph pickle is missing, raises an uncaught file-not-found
error and emits no row — refuting the claim that both exporters treat a
missing graph file as silently excluded with the row still emitted and no
error raised. -/
theorem netlist_export_missing_graph_error :
    netlist_export (fun _ => none) (fun _ => 0)
        [(0, ⟨0, "low_low_low", true⟩)] = .error (0, "low_low_low") := by
  rfl

/-- C2 (amended): the RTL CSV exporter treats a missing dataflow-graph file
as silently excluded — it always emits exactly one row per record and a
record whose module graphs are all missing aggregates to zero; the netlist
CSV exporter instead aborts on a missing graph pickle: it produces rows
exactly when every record's graph file is present. -/
theorem csv_exporters_missing_graph_behavior :
    (∀ (graphs : Nat × String → Option DGraph) (vlen : Nat → Nat)
        (data : List (Nat × RtlCsvRecord)),
        (rtl_export graphs vlen data).length = data.length)
    ∧ (∀ (graphs : Nat × String → Option DGraph) (vlen : Nat → Nat)
        (rtl_id : Nat) (v : RtlCsvRecord),
        (∀ m ∈ v.name_mapping.map Prod.fst, graphs (rtl_id, m) = none) →
          (mk_rtl_row graphs vlen rtl_id v).dataflow_node = 0
          ∧ (mk_rtl_row graphs vlen rtl_id v).dataflow_edge = 0)
    ∧ (∀ (graphs : Nat × String → Option NGraph) (vlen : Nat × String → Nat)
        (data : List (Nat × NetRecord)),
        (∃ rows, netlist_export graphs vlen data = .ok rows) ↔
          ∀ kv ∈ data, (graphs (kv.2.rtl_id, kv.2.synthesis_efforts)).isSome = true) := by
  refine ⟨?_, ?_, ?_⟩
  · intro graphs vlen data
    simp [rtl_export]
  · intro graphs vlen rtl_id v hmiss
    have hinfo : ((v.name_mapping.map Prod.fst).filterMap fun m =>
        (graphs (rtl_id, m)).map extract_dataflow_graph_info) = [] := by
      rw [List.filterMap_eq_nil_iff]
      intro m hm
      rw [hmiss m hm]
      rfl
    constructor
    · show ((v.name_mapping.map Prod.fst).filterMap fun m =>
          (graphs (rtl_id, m)).map extract_dataflow_graph_info).foldl
            (fun a gi => a + gi.node_count) 0 = 0
      rw [hinfo]
      rfl
    · show ((v.name_mapping.map Prod.fst).filterMap fun m =>
          (graphs (rtl_id, m)).map extract_dataflow_graph_info).foldl
            (fun a gi => a + gi.edge_count) 0 = 0
      rw [hinfo]
      rfl
  · intro graphs vlen data
    induction data with
    | nil =>
      exact ⟨fun _ kv hkv => absurd hkv (List.not_mem_nil kv), fun _ => ⟨[], rfl⟩⟩
    | cons kv rest ih =>
      obtain ⟨key, v⟩ := kv
      cases hg : graphs (v.rtl_id, v.synthesis_efforts) with
      | none =>
        constructor
        · rintro ⟨rows, hrows⟩
          simp only [netlist_export, hg] at hrows
          exact Except.noConfusion hrows
        · intro hall
          have := hall (key, v) (List.mem_cons_self _ _)
          rw [hg] at this
          exact absurd this (by simp)
      | some g =>
        constructor
        · rintro ⟨rows, hrows⟩
          simp only [netlist_export, hg] at hrows
          cases hr : netlist_export graphs vlen rest with
          | ok rows2 =>
            intro kv2 hkv2
            rcases List.mem_cons.1 hkv2 with he | hm
            · rw [he]
              show (graphs (v.rtl_id, v.synthesis_efforts)).isSome = true
              rw [hg]
              rfl
            · exact (ih.1 ⟨rows2, hr⟩) kv2 hm
          | error e =>
            rw [hr] at hrows
            exact Except.noConfusion hrows
        · intro hall
          obtain ⟨rows2, hr⟩ := ih.2 fun kv2 hm => hall kv2 (List.mem_cons_of_mem _ hm)
          exact ⟨mk_net_row key v g (vlen (v.rtl_id, v.synthesis_efforts)) :: rows2,
            by simp only [netlist_export, hg, hr]⟩

theorem csv_exporters_missing_graph_behavior_witness :
    (mk_rtl_row (fun _ => none) (fun _ => 5) 0
        ⟨[("m", "x")], true, true, "", "", ""⟩).dataflow_node = 0 :=
  ((csv_exporters_missing_graph_behavior.2.1 (fun _ => none) (fun _ => 5) 0
      ⟨[("m", "x")], true, true, "", "", ""⟩) (fun _ _ => rfl)).1

lemma rstripCommas_of_getLast_ne (l : List Char) (c : Char)
    (hl : l.getLast? = some c) (hc : c ≠ ',') : rstripCommas l = l := by
  unfold rstripCommas
  cases hr : l.reverse with
  | nil =>
    have : l = [] := by
      have := congrArg List.reverse hr
      rwa [List.reverse_reverse] at this
    rw [this] at hl
    exact Option.noConfusion hl
  | cons a as =>
    have ha : a = c := by
      have h2 : l.getLast? = some a := by
        rw [List.getLast?_eq_head?_reverse, hr]
        rfl
      rw [h2] at hl
      exact Option.some.inj hl
    rw [dropLeadCommas, if_neg (ha ▸ hc)]
    rw [← hr, List.reverse_reverse]

/-- C7 (amended): the preprocessing and the repair dispatch of
`process_batch`.  (1) A response that is already a syntactically valid JSON
object — valid JSON whose stripped text ends in a closing brace — parses to
the same value as direct parsing with no repair branch triggering.  (2) On a
failed parse the repair is dispatched on the error message: quoting bare
property names for the property-name error, comma insertion at the reported
offset (then collapsing comma-whitespace-comma) for the comma-delimiter
error, otherwise appending a trailing comma and finally truncating to the
longest prefix before the first error's offset.  (3) A valid non-object
response such as `[1, 2]` does not parse unchanged — the appended closing
brace makes the initial parse fail with Extra data — but the truncation
strategy recovers the same value as direct parsing. -/
theorem judge_repair_object_preserving :
    (∀ (s : String) (v : JsonValue),
        json_loadsChars (pyStripChars s.toList) = .ok v →
        (pyStripChars s.toList).getLast? = some '\x7d' →
        json_loadsChars (judgePreprocess s) = .ok v ∧ judge_parse_response s = some v)
    ∧ (∀ (s : String) (e : JErr),
        json_loadsChars (judgePreprocess s) = .error e →
        judge_parse_response s =
          match e.kind with
          | .expectingPropertyName =>
            (match json_loadsChars (quoteBare ((judgePreprocess s).length + 1) (judgePreprocess s)) with
             | .ok v => some v
             | .error _ => none)
          | .expectingCommaDelimiter =>
            (match json_loadsChars (collapseCommaPairs ((judgePreprocess s).length + 2)
                (insertAt (judgePreprocess s) e.pos ',')) with
             | .ok v => some v
             | .error _ => none)
          | _ =>
            (match json_loadsChars (rstripWs (judgePreprocess s) ++ [',']) with
             | .ok v => some v
             | .error _ =>
               match json_loadsChars ((judgePreprocess s).take e.pos) with
               | .ok v => some v
               | .error _ => none))
    ∧ (judge_parse_response "[1, 2]" = some (.arr [.num 1 "", .num 2 ""])
       ∧ json_loadsChars (judgePreprocess "[1, 2]") = .error ⟨.extraData, 6⟩) := by
  refine ⟨?_, ?_, rfl, rfl⟩
  · intro s v h1 h2
    have h3 : judgePreprocess s = pyStripChars s.toList := by
      unfold judgePreprocess
      rw [rstripCommas_of_getLast_ne _ _ h2 (by decide), if_pos h2]
    refine ⟨by rw [h3]; exact h1, ?_⟩
    simp only [judge_parse_response, h3, h1]
  · intro s e he
    simp only [judge_parse_response]
    rw [he]

/-- C7 (counterexample): the response `[1, 2]` is syntactically valid JSON,
yet it does not pass through the pipeline untouched: the preprocessing
appends a closing brace, the initial parse then fails with Extra data at
offset 6, and only the final truncation repair recovers the value — so the
claim's "no repair strategy altering it" (the spec's "no repair branch
triggers") is false, although the recovered value equals direct parsing. -/
theorem judge_repair_valid_array_not_direct :
    json_loads "[1, 2]" = .ok (.arr [.num 1 "", .num 2 ""])
    ∧ json_loadsChars (judgePreprocess "[1, 2]") = .error ⟨.extraData, 6⟩
    ∧ judge_parse_response "[1, 2]" = some (.arr [.num 1 "", .num 2 ""]) :=
  ⟨rfl, rfl, rfl⟩

theorem judge_repair_object_preserving_witness :
    judge_parse_response " \x7b\"a\": 1\x7d " = some (.obj [("a", .num 1 "")]) :=
  (judge_repair_object_preserving.1 " \x7b\"a\": 1\x7d " (.obj [("a", .num 1 "")]) rfl rfl).2

end VLSILLM
